import Mathlib

/-!
Verification development for the prediction client module (`prediction.go`).

The Go source is shallowly embedded: Go maps (`map[string]T`) become
association lists with first-key lookup and replace-or-append update,
`interface\x7b\x7d` values become the inductive `GoValue`, Go errors built with
`fmt.Errorf("...: %w", err)` become the inductive `GoError` with a `wrap`
constructor, and byte slices become `String`.  External collaborators that are
not part of `src/` (the HTTP transport `r.do`/`r.fetch`/`r.newRequest`, the
pagination container `Page`, and `ParseIdentifier`) are either taken as
parameters of the operations or, where their behaviour decides a claim,
modelled from the spec with an explicit note.
-/

set_option autoImplicit false

namespace Replicate

/-- Go error values: either a base error or an error produced by
`fmt.Errorf("msg: %w", cause)`, which wraps `cause` under message `msg`. -/
inductive GoError where
  | base (msg : String)
  | wrap (msg : String) (cause : GoError)
  deriving DecidableEq, Repr

/-- Embedding of `*File` (from the files module): only the `URLs` field is
used by this module (`file.URLs["get"]`). -/
structure File where
  URLs : List (String × String)
  deriving DecidableEq, Repr

/-- Embedding of `Webhook`: a callback URL plus a list of event types
(`WebhookEventType` is a string type in Go). -/
structure Webhook where
  URL : String
  Events : List String
  deriving DecidableEq, Repr

/-- Go `interface\x7b\x7d` values that can appear in a request payload map:
strings, booleans, lists, nested maps, `*File` references. -/
inductive GoValue where
  | vStr (s : String)
  | vBool (b : Bool)
  | vList (xs : List GoValue)
  | vMap (m : List (String × GoValue))
  | vFile (f : File)

/-- A Go `map[string]interface\x7b\x7d`, embedded as an association list with
unique keys (first occurrence wins on lookup). -/
abbrev GoMap := List (String × GoValue)

/-- Go map read `m[k]` (with presence bit): first entry with key `k`. -/
def mapGet {β : Type} (m : List (String × β)) (k : String) : Option β :=
  match m with
  | [] => none
  | (a, b) :: t => if a = k then some b else mapGet t k

/-- Go map write `m[k] = v`: replace the existing entry for `k`, else append. -/
def mapSet {β : Type} (m : List (String × β)) (k : String) (v : β) :
    List (String × β) :=
  match m with
  | [] => [(k, v)]
  | (a, b) :: t => if a = k then (a, v) :: t else (a, b) :: mapSet t k v

/-- Go string-map read with zero value: `f.URLs["get"]` yields `""` when the
key is absent. -/
def fileGetURL (f : File) : String :=
  (mapGet f.URLs "get").getD ""

theorem mapGet_mapSet_self {β : Type} (m : List (String × β)) (k : String)
    (v : β) : mapGet (mapSet m k v) k = some v := by
  induction m with
  | nil => simp [mapGet, mapSet]
  | cons hd t ih =>
    obtain ⟨a, b⟩ := hd
    by_cases h : a = k <;> simp [mapGet, mapSet, h, ih]

theorem mapGet_mapSet_ne {β : Type} (m : List (String × β)) (k j : String)
    (v : β) (h : j ≠ k) : mapGet (mapSet m j v) k = mapGet m k := by
  induction m with
  | nil => simp [mapGet, mapSet, h]
  | cons hd t ih =>
    obtain ⟨a, b⟩ := hd
    by_cases ha : a = j
    · subst ha
      simp [mapGet, mapSet, h]
    · simp [mapGet, mapSet, ha, ih]

/-! ### JSON values and a JSON reader

`Prediction.UnmarshalJSON` delegates the structured decode to the standard
library (`encoding/json`).  That collaborator is modelled here concretely: a
JSON grammar reader (`parseJson`) plus field-wise decoding rules
(`decodeAlias`) that follow `encoding/json` semantics for the concrete field
types of `Prediction`.  Numbers are carried as their source lexemes, since no
behaviour of this module depends on numeric JSON semantics. -/

/-- JSON values. -/
inductive Json where
  | null
  | bool (b : Bool)
  | num (lexeme : String)
  | str (s : String)
  | arr (xs : List Json)
  | obj (fields : List (String × Json))

/-- JSON insignificant whitespace. -/
def isJsonWs (c : Char) : Bool :=
  c = ' ' || c = '\t' || c = '\n' || c = '\r'

/-- ASCII decimal digit. -/
def isDigitCh (c : Char) : Bool :=
  '0' ≤ c && c ≤ '9'

/-- ASCII hexadecimal digit. -/
def isHexDigitCh (c : Char) : Bool :=
  isDigitCh c || ('a' ≤ c && c ≤ 'f') || ('A' ≤ c && c ≤ 'F')

/-- Numeric value of a hexadecimal digit. -/
def hexVal (c : Char) : Nat :=
  if isDigitCh c then c.toNat - '0'.toNat
  else if 'a' ≤ c && c ≤ 'f' then c.toNat - 'a'.toNat + 10
  else c.toNat - 'A'.toNat + 10

/-- Single-character JSON string escapes. -/
def escChar (e : Char) : Option Char :=
  if e = '"' then some '"'
  else if e = '\\' then some '\\'
  else if e = '/' then some '/'
  else if e = 'b' then some '\x08'
  else if e = 'f' then some '\x0c'
  else if e = 'n' then some '\n'
  else if e = 'r' then some '\r'
  else if e = 't' then some '\t'
  else none

/-- Read the body of a JSON string literal (the opening quote already
consumed); returns the decoded characters and the input after the closing
quote.  Unescaped control characters are rejected, as in `encoding/json`. -/
def readStringBody : List Char → Option (List Char × List Char)
  | '"' :: rest => some ([], rest)
  | '\\' :: 'u' :: h1 :: h2 :: h3 :: h4 :: rest =>
    if isHexDigitCh h1 && isHexDigitCh h2 && isHexDigitCh h3 && isHexDigitCh h4 then
      (readStringBody rest).map (fun p =>
        (Char.ofNat (((hexVal h1 * 16 + hexVal h2) * 16 + hexVal h3) * 16 + hexVal h4)
          :: p.1, p.2))
    else none
  | '\\' :: e :: rest =>
    match escChar e with
    | some c => (readStringBody rest).map (fun p => (c :: p.1, p.2))
    | none => none
  | c :: rest =>
    if c.toNat < 32 then none
    else (readStringBody rest).map (fun p => (c :: p.1, p.2))
  | [] => none

/-- Longest prefix of decimal digits. -/
def takeDigitsCh : List Char → List Char × List Char
  | [] => ([], [])
  | c :: rest =>
    if isDigitCh c then
      let p := takeDigitsCh rest
      (c :: p.1, p.2)
    else ([], c :: rest)

/-- Integer part of a JSON number: `0`, or a nonzero digit followed by
digits (leading zeros rejected, as in the JSON grammar). -/
def readIntPart : List Char → Option (List Char × List Char)
  | '0' :: rest => some (['0'], rest)
  | c :: rest =>
    if isDigitCh c then
      let p := takeDigitsCh rest
      some (c :: p.1, p.2)
    else none
  | [] => none

/-- Optional fraction part of a JSON number. -/
def readFracPart : List Char → Option (List Char × List Char)
  | '.' :: rest =>
    match takeDigitsCh rest with
    | ([], _) => none
    | (d, r) => some ('.' :: d, r)
  | cs => some ([], cs)

/-- Optional exponent part of a JSON number. -/
def readExpPart : List Char → Option (List Char × List Char)
  | e :: rest =>
    if e = 'e' || e = 'E' then
      let sr : List Char × List Char :=
        match rest with
        | '+' :: t => (['+'], t)
        | '-' :: t => (['-'], t)
        | t => ([], t)
      match takeDigitsCh sr.2 with
      | ([], _) => none
      | (d, r) => some (e :: (sr.1 ++ d), r)
    else some ([], e :: rest)
  | [] => some ([], [])

/-- Read a JSON number, returning its lexeme. -/
def readNumber (cs : List Char) : Option (List Char × List Char) :=
  let nr : List Char × List Char :=
    match cs with
    | '-' :: t => (['-'], t)
    | t => ([], t)
  match readIntPart nr.2 with
  | none => none
  | some (ip, cs2) =>
    match readFracPart cs2 with
    | none => none
    | some (fp, cs3) =>
      match readExpPart cs3 with
      | none => none
      | some (ep, cs4) => some (nr.1 ++ ip ++ fp ++ ep, cs4)

mutual

/-- Read one JSON value (leading whitespace allowed); fuelled recursion. -/
def readValue : Nat → List Char → Option (Json × List Char)
  | 0, _ => none
  | fuel + 1, cs =>
    match cs.dropWhile isJsonWs with
    | '"' :: rest => (readStringBody rest).map (fun p => (Json.str (String.mk p.1), p.2))
    | '[' :: rest => readArrayRest fuel rest
    | '\x7b' :: rest => readObjectRest fuel rest
    | 't' :: 'r' :: 'u' :: 'e' :: rest => some (Json.bool true, rest)
    | 'f' :: 'a' :: 'l' :: 's' :: 'e' :: rest => some (Json.bool false, rest)
    | 'n' :: 'u' :: 'l' :: 'l' :: rest => some (Json.null, rest)
    | rest => (readNumber rest).map (fun p => (Json.num (String.mk p.1), p.2))

/-- Read the remainder of a JSON array (after `[`). -/
def readArrayRest : Nat → List Char → Option (Json × List Char)
  | 0, _ => none
  | fuel + 1, cs =>
    match cs.dropWhile isJsonWs with
    | ']' :: rest => some (Json.arr [], rest)
    | rest => (readElems fuel rest).map (fun p => (Json.arr p.1, p.2))

/-- Read one or more comma-separated array elements up to `]`. -/
def readElems : Nat → List Char → Option (List Json × List Char)
  | 0, _ => none
  | fuel + 1, cs =>
    match readValue fuel cs with
    | none => none
    | some (v, rest) =>
      match rest.dropWhile isJsonWs with
      | ',' :: rest1 =>
        match readElems fuel rest1 with
        | none => none
        | some (xs, r) => some (v :: xs, r)
      | ']' :: rest1 => some ([v], rest1)
      | _ => none

/-- Read the remainder of a JSON object (after the opening brace). -/
def readObjectRest : Nat → List Char → Option (Json × List Char)
  | 0, _ => none
  | fuel + 1, cs =>
    match cs.dropWhile isJsonWs with
    | '\x7d' :: rest => some (Json.obj [], rest)
    | rest => (readMembers fuel rest).map (fun p => (Json.obj p.1, p.2))

/-- Read one or more `"key": value` members up to the closing brace. -/
def readMembers : Nat → List Char → Option (List (String × Json) × List Char)
  | 0, _ => none
  | fuel + 1, cs =>
    match cs.dropWhile isJsonWs with
    | '"' :: rest =>
      match readStringBody rest with
      | none => none
      | some (k, rest1) =>
        match rest1.dropWhile isJsonWs with
        | ':' :: rest2 =>
          match readValue fuel rest2 with
          | none => none
          | some (v, rest3) =>
            match rest3.dropWhile isJsonWs with
            | ',' :: rest4 =>
              match readMembers fuel rest4 with
              | none => none
              | some (fs, r) => some ((String.mk k, v) :: fs, r)
            | '\x7d' :: rest4 => some ([(String.mk k, v)], rest4)
            | _ => none
        | _ => none
    | _ => none

end

/-- Parse a complete JSON document: one value, with only whitespace allowed
after it (`encoding/json` rejects trailing data).  The fuel bound exceeds the
deepest possible call chain for the given input length. -/
def parseJson (s : String) : Option Json :=
  let cs := s.data
  match readValue (4 * cs.length + 8) cs with
  | none => none
  | some (j, rest) => if (rest.dropWhile isJsonWs).isEmpty then some j else none

/-! ### The Prediction entity -/

/-- Embedding of `PredictionMetrics`.  The `*float64`/`*int` values are kept
as JSON number lexemes (`none` = nil pointer); no claim depends on their
numeric interpretation. -/
structure PredictionMetrics where
  PredictTime : Option String := none
  TotalTime : Option String := none
  InputTokenCount : Option String := none
  OutputTokenCount : Option String := none
  TimeToFirstToken : Option String := none
  TokensPerSecond : Option String := none
  deriving DecidableEq, Repr

/-- Embedding of the `Prediction` struct.  `Status` and `Source` are string
types in Go; pointer fields become `Option`; maps become association lists;
`interface\x7b\x7d`-typed `Output`/`Error` hold decoded JSON (`none` = nil).
Defaults are the Go zero values of `Prediction\x7b\x7d`. -/
structure Prediction where
  ID : String := ""
  Status : String := ""
  Model : String := ""
  Version : String := ""
  Input : List (String × Json) := []
  Output : Option Json := none
  Source : String := ""
  Error : Option Json := none
  Logs : Option String := none
  Metrics : Option PredictionMetrics := none
  Webhook : Option String := none
  WebhookEventsFilter : List String := []
  URLs : List (String × String) := []
  CreatedAt : String := ""
  StartedAt : Option String := none
  CompletedAt : Option String := none
  rawJSON : String := ""

/-- `func (p *Prediction) RawJSON() json.RawMessage \x7b return p.rawJSON \x7d` -/
def Prediction.RawJSON (p : Prediction) : String :=
  p.rawJSON

/-- Field lookup in a decoded JSON object: `encoding/json` processes members
in order, so for duplicate keys the last occurrence wins. -/
def jLookup (fs : List (String × Json)) (k : String) : Option Json :=
  mapGet fs.reverse k

/-- Decode a string-typed struct field: absent or `null` keeps the old value;
a JSON string replaces it; any other value is a type error. -/
def decStr (fs : List (String × Json)) (k : String) (old : String) :
    Option String :=
  match jLookup fs k with
  | none => some old
  | some Json.null => some old
  | some (Json.str s) => some s
  | some _ => none

/-- Decode a `*string` field: absent keeps the old value; `null` sets nil. -/
def decOptStr (fs : List (String × Json)) (k : String) (old : Option String) :
    Option (Option String) :=
  match jLookup fs k with
  | none => some old
  | some Json.null => some none
  | some (Json.str s) => some (some s)
  | some _ => none

/-- Decode an `interface\x7b\x7d` field: any JSON value is accepted;
`null` sets nil. -/
def decAny (fs : List (String × Json)) (k : String) (old : Option Json) :
    Option (Option Json) :=
  match jLookup fs k with
  | none => some old
  | some Json.null => some none
  | some v => some (some v)

/-- Decode a `map[string]interface\x7b\x7d` field: `null` sets a nil map; an
object merges into the existing map (as `encoding/json` reuses non-nil maps);
anything else is a type error. -/
def decJsonMap (fs : List (String × Json)) (k : String)
    (old : List (String × Json)) : Option (List (String × Json)) :=
  match jLookup fs k with
  | none => some old
  | some Json.null => some []
  | some (Json.obj mfs) => some (mfs.foldl (fun acc kv => mapSet acc kv.1 kv.2) old)
  | some _ => none

/-- Every element of a JSON array must be a string. -/
def strElems : List Json → Option (List String)
  | [] => some []
  | Json.str s :: t => (strElems t).map (fun r => s :: r)
  | _ => none

/-- Decode a `[]WebhookEventType` field (string slice): `null` sets a nil
slice; an array replaces the slice and every element must be a string. -/
def decStrList (fs : List (String × Json)) (k : String) (old : List String) :
    Option (List String) :=
  match jLookup fs k with
  | none => some old
  | some Json.null => some []
  | some (Json.arr xs) => strElems xs
  | some _ => none

/-- Every member value of a JSON object must be a string. -/
def strMembers : List (String × Json) → Option (List (String × String))
  | [] => some []
  | (k, Json.str s) :: t => (strMembers t).map (fun r => (k, s) :: r)
  | _ => none

/-- Decode a `map[string]string` field: `null` sets a nil map; an object
merges string members into the existing map; anything else is a type error. -/
def decStrMap (fs : List (String × Json)) (k : String)
    (old : List (String × String)) : Option (List (String × String)) :=
  match jLookup fs k with
  | none => some old
  | some Json.null => some []
  | some (Json.obj mfs) =>
    (strMembers mfs).map (fun ms => ms.foldl (fun acc kv => mapSet acc kv.1 kv.2) old)
  | some _ => none

/-- Decode a numeric (lexeme-carried) metrics field: `null` sets nil. -/
def decNum (fs : List (String × Json)) (k : String) (old : Option String) :
    Option (Option String) :=
  match jLookup fs k with
  | none => some old
  | some Json.null => some none
  | some (Json.num lx) => some (some lx)
  | some _ => none

/-- Decode a JSON object into a `PredictionMetrics` value. -/
def decMetricsObj (mfs : List (String × Json)) (m : PredictionMetrics) :
    Option PredictionMetrics := do
  let pt ← decNum mfs "predict_time" m.PredictTime
  let tt ← decNum mfs "total_time" m.TotalTime
  let itc ← decNum mfs "input_token_count" m.InputTokenCount
  let otc ← decNum mfs "output_token_count" m.OutputTokenCount
  let ttft ← decNum mfs "time_to_first_token" m.TimeToFirstToken
  let tps ← decNum mfs "tokens_per_second" m.TokensPerSecond
  pure ⟨pt, tt, itc, otc, ttft, tps⟩

/-- Decode a `*PredictionMetrics` field: `null` sets nil; an object decodes
into the existing value (or a fresh zero value when nil). -/
def decMetrics (fs : List (String × Json)) (k : String)
    (old : Option PredictionMetrics) : Option (Option PredictionMetrics) :=
  match jLookup fs k with
  | none => some old
  | some Json.null => some none
  | some (Json.obj mfs) => (decMetricsObj mfs (old.getD ⟨none, none, none, none, none, none⟩)).map some
  | some _ => none

/-- Embedding of `type Alias Prediction`: the same fields as `Prediction`
except `rawJSON`, which carries the tag `json:"-"` and is therefore invisible
to `encoding/json`. -/
structure Alias where
  ID : String
  Status : String
  Model : String
  Version : String
  Input : List (String × Json)
  Output : Option Json
  Source : String
  Error : Option Json
  Logs : Option String
  Metrics : Option PredictionMetrics
  Webhook : Option String
  WebhookEventsFilter : List String
  URLs : List (String × String)
  CreatedAt : String
  StartedAt : Option String
  CompletedAt : Option String

/-- The view of a `Prediction` that `encoding/json` decodes into. -/
def Prediction.toAlias (p : Prediction) : Alias :=
  ⟨p.ID, p.Status, p.Model, p.Version, p.Input, p.Output, p.Source, p.Error,
   p.Logs, p.Metrics, p.Webhook, p.WebhookEventsFilter, p.URLs, p.CreatedAt,
   p.StartedAt, p.CompletedAt⟩

/-- Write a decoded `Alias` back over a `Prediction`; `rawJSON` is untouched
(`json:"-"`). -/
def Prediction.applyAlias (p : Prediction) (a : Alias) : Prediction :=
  { ID := a.ID, Status := a.Status, Model := a.Model, Version := a.Version,
    Input := a.Input, Output := a.Output, Source := a.Source, Error := a.Error,
    Logs := a.Logs, Metrics := a.Metrics, Webhook := a.Webhook,
    WebhookEventsFilter := a.WebhookEventsFilter, URLs := a.URLs,
    CreatedAt := a.CreatedAt, StartedAt := a.StartedAt,
    CompletedAt := a.CompletedAt, rawJSON := p.rawJSON }

/-- Decode the members of a JSON object into an `Alias`, field by field, with
the wire names of `prediction.go`; unknown keys are ignored. -/
def decodeAlias (fs : List (String × Json)) (a : Alias) : Option Alias := do
  let i ← decStr fs "id" a.ID
  let st ← decStr fs "status" a.Status
  let mo ← decStr fs "model" a.Model
  let ver ← decStr fs "version" a.Version
  let inp ← decJsonMap fs "input" a.Input
  let out ← decAny fs "output" a.Output
  let src ← decStr fs "source" a.Source
  let er ← decAny fs "error" a.Error
  let lg ← decOptStr fs "logs" a.Logs
  let met ← decMetrics fs "metrics" a.Metrics
  let wh ← decOptStr fs "webhook" a.Webhook
  let evf ← decStrList fs "webhook_events_filter" a.WebhookEventsFilter
  let urls ← decStrMap fs "urls" a.URLs
  let ca ← decStr fs "created_at" a.CreatedAt
  let sa ← decOptStr fs "started_at" a.StartedAt
  let coa ← decOptStr fs "completed_at" a.CompletedAt
  pure ⟨i, st, mo, ver, inp, out, src, er, lg, met, wh, evf, urls, ca, sa, coa⟩

/-- `json.Unmarshal(data, &struct\x7b *Alias \x7d\x7b...\x7d)`: a top-level
`null` is a no-op, an object decodes field-wise into the alias view, and any
other document is a type error. -/
def decodePrediction (j : Json) (p : Prediction) : Option Prediction :=
  match j with
  | Json.null => some p
  | Json.obj fs => (decodeAlias fs p.toAlias).map p.applyAlias
  | _ => none

/-- `json.Unmarshal(data, alias)` where `alias` wraps the current value
`p1`: parse the document, then decode it over `p1` through the `Alias` view.
The result pair is (updated value, returned error).  On a decode error Go
may leave some struct fields partially written; the model keeps their old
values — no claim depends on field contents after a failed decode. -/
def jsonUnmarshalInto (p1 : Prediction) (data : String) :
    Prediction × Option GoError :=
  match parseJson data with
  | none => (p1, some (GoError.base "invalid JSON"))
  | some j =>
    match decodePrediction j p1 with
    | none => (p1, some (GoError.base "json: cannot unmarshal"))
    | some p2 => (p2, none)

/-- `func (p *Prediction) UnmarshalJSON(data []byte) error`: line 48 stores
`data` into `p.rawJSON` first (whether or not the decode succeeds), then
line 51 runs the structured decode over the same value. -/
def Prediction.UnmarshalJSON (p : Prediction) (data : String) :
    Prediction × Option GoError :=
  jsonUnmarshalInto { p with rawJSON := data } data

/-! ### The progress parser

`Prediction.Progress` matches each log line against the Go regexp

  `^\s*(?P<percentage>\d+)%\s*\|.+?\|\s*(?P<current>\d+)\/(?P<total>\d+)`

The pattern is embedded as a hand-rolled matcher with exactly the regexp's
semantics: `^` anchors at the string start, `\s` is the RE2 Perl class
`[\t\n\f\r ]`, greedy `\s*`/`\d+` steps never need backtracking here because
the adjacent character classes are disjoint, and the single lazy step `.+?`
is realised by scanning for the nearest closing `|` whose tail completes the
match. -/

/-- The RE2 character class `\s` = `[\t\n\f\r ]`. -/
def isReSpace (c : Char) : Bool :=
  c = '\t' || c = '\n' || c = '\x0c' || c = '\r' || c = ' '

/-- `unicode.IsSpace`, used by `strings.TrimSpace`: White_Space code points. -/
def isGoSpace (c : Char) : Bool :=
  c = '\t' || c = '\n' || c = '\x0b' || c = '\x0c' || c = '\r' || c = ' ' ||
  c.toNat = 0x85 || c.toNat = 0xA0 || c.toNat = 0x1680 ||
  (0x2000 ≤ c.toNat && c.toNat ≤ 0x200A) ||
  c.toNat = 0x2028 || c.toNat = 0x2029 || c.toNat = 0x202F ||
  c.toNat = 0x205F || c.toNat = 0x3000

/-- `strings.TrimSpace`: drop leading and trailing White_Space characters. -/
def trimSpace (s : String) : String :=
  String.mk (((s.data.dropWhile isGoSpace).reverse.dropWhile isGoSpace).reverse)

/-- Numeric value of a decimal digit string (`fmt.Sscanf` with `%d`). -/
def natOfDigits (ds : List Char) : Nat :=
  ds.foldl (fun n c => 10 * n + (c.toNat - '0'.toNat)) 0

/-- Greedy `(\d+)`: the longest nonempty digit prefix and its value. -/
def takeDigits (cs : List Char) : Option (Nat × List Char) :=
  match takeDigitsCh cs with
  | ([], _) => none
  | (ds, rest) => some (natOfDigits ds, rest)

/-- The tail `\s*(?P<current>\d+)\/(?P<total>\d+)` of the progress pattern. -/
def matchTail (cs : List Char) : Option (Nat × Nat) :=
  match takeDigits (cs.dropWhile isReSpace) with
  | none => none
  | some (cur, cs1) =>
    match cs1 with
    | '/' :: cs2 => (takeDigits cs2).map (fun p => (cur, p.1))
    | _ => none

/-- The lazy step `.+?\|` followed by `matchTail`: consume at least one
non-newline character, then find the nearest `|` whose tail completes the
match; on tail failure the `|` itself is absorbed by `.+?` and the scan
continues, exactly like the regexp's backtracking order. -/
def lazySearch : List Char → Option (Nat × Nat)
  | [] => none
  | c :: rest =>
    if c = '\n' then none
    else
      match rest with
      | '|' :: tail =>
        match matchTail tail with
        | some r => some r
        | none => lazySearch rest
      | _ => lazySearch rest

/-- Whole-pattern match anchored at the start of the string, returning the
three captured integers `(percentage, current, total)`. -/
def progressMatch (s : String) : Option (Nat × Nat × Nat) :=
  match takeDigits (s.data.dropWhile isReSpace) with
  | none => none
  | some (pct, cs1) =>
    match cs1 with
    | '%' :: cs2 =>
      match cs2.dropWhile isReSpace with
      | '|' :: cs3 => (lazySearch cs3).map (fun p => (pct, p.1, p.2))
      | _ => none
    | _ => none

/-- Embedding of `PredictionProgress`.  `Percentage` (Go `float64`, computed
as `float64(percentage) / float64(100)`) is carried as a rational. -/
structure PredictionProgress where
  Percentage : ℚ
  Current : Nat
  Total : Nat
  deriving DecidableEq, Repr

/-- One iteration of the scanning loop (lines 86-100): test the pattern on
the trimmed line, extract the submatches from the original line, and build
the snapshot; a line that matches trimmed but yields no submatch on the raw
line is skipped. -/
def progressLine (line : String) : Option PredictionProgress :=
  if (progressMatch (trimSpace line)).isSome then
    match progressMatch line with
    | some (pct, cur, tot) => some ⟨(pct : ℚ) / 100, cur, tot⟩
    | none => none
  else none

/-- `strings.Split` with a single-character separator, on character lists. -/
def splitOnCh (sep : Char) : List Char → List (List Char)
  | [] => [[]]
  | c :: rest =>
    if c = sep then [] :: splitOnCh sep rest
    else
      match splitOnCh sep rest with
      | h :: t => (c :: h) :: t
      | [] => [[c]]

/-- `strings.Split(logs, "\n")`. -/
def splitLines (s : String) : List String :=
  (splitOnCh '\n' s.data).map String.mk

/-- The loop `for i := len(lines) - 1; i >= 0; i--`, expressed as a scan of
the reversed line list: the first line (in reverse order) that yields a
snapshot wins. -/
def progressScan : List String → Option PredictionProgress
  | [] => none
  | l :: rest =>
    match progressLine l with
    | some r => some r
    | none => progressScan rest

/-- `func (p Prediction) Progress() *PredictionProgress`: nil or empty logs
give no result; otherwise the lines are scanned from the last to the first.
(The `len(lines) == 0` guard of line 81 is dead: `strings.Split` never
returns an empty slice.) -/
def Prediction.Progress (p : Prediction) : Option PredictionProgress :=
  match p.Logs with
  | none => none
  | some logs =>
    if logs = "" then none
    else progressScan (splitLines logs).reverse

/-! ### The request builder

`createPredictionRequest` mutates two caller-supplied Go maps: the `input`
map (file substitution) and, when non-nil, the base `data` map (the
`input`/`webhook`/`webhook_events_filter`/`stream` keys).  The embedding
makes those side effects explicit: `BuildOutcome.inputAfter` is the
post-call state of the caller's input map and `BuildOutcome.dataAfter` the
post-call state of the caller's data map (`none` when the caller passed
nil and the builder allocated a fresh map).  `json.Marshal` cannot fail on
any `GoValue`, and `r.newRequest` belongs to the transport collaborator, so
the two local error paths of lines 132-146 do not arise in the model. -/

/-- The transport-level request handed to `r.newRequest`. -/
structure BuiltRequest where
  method : String
  path : String
  body : GoMap

/-- Result of the builder plus the post-call state of the mutated maps. -/
structure BuildOutcome where
  req : BuiltRequest
  inputAfter : GoMap
  dataAfter : Option GoMap

/-- The loop body of lines 110-112: a `*File` value becomes its `"get"` URL
string (`value.(*File)` type assertion); any other value is untouched. -/
def substFile (v : GoValue) : GoValue :=
  match v with
  | GoValue.vFile f => GoValue.vStr (fileGetURL f)
  | v => v

/-- Lines 109-113: `for key, value := range input`, replacing every `*File`
value by `file.URLs["get"]` in place; all other entries are untouched. -/
def rewriteInput (input : GoMap) : GoMap :=
  input.map (fun kv => (kv.1, substFile kv.2))

/-- `func (r *Client) createPredictionRequest(ctx, path, data, input,
webhook, stream)`: substitute file URLs in `input`, allocate `data` if nil,
set `input`, conditionally set `webhook` / `webhook_events_filter` /
`stream`, and serialize `data` as the request body. -/
def createPredictionRequest (path : String) (data : Option GoMap)
    (input : GoMap) (webhook : Option Webhook) (stream : Bool) :
    BuildOutcome :=
  let input1 := rewriteInput input
  let d0 := data.getD []
  let d1 := mapSet d0 "input" (GoValue.vMap input1)
  let d2 :=
    match webhook with
    | none => d1
    | some w =>
      let da := mapSet d1 "webhook" (GoValue.vStr w.URL)
      if 0 < w.Events.length then
        mapSet da "webhook_events_filter" (GoValue.vList (w.Events.map GoValue.vStr))
      else da
  let d3 := if stream then mapSet d2 "stream" (GoValue.vBool true) else d2
  { req := { method := "POST", path := path, body := d3 },
    inputAfter := input1,
    dataAfter := data.map (fun _ => d3) }

/-! ### The four service operations

The HTTP transport (`r.do` / `r.fetch` of the client module, outside
`src/`) is a collaborator: each operation takes it as a parameter mapping
the issued request to either a transport error or the entity decoded into
the operation's fresh response value. -/

/-- Modelled from the spec: the result of the identifier-parsing
collaborator `ParseIdentifier` (not part of `src/`) — "a structure with
`owner`, `name`, and an optional `version`". -/
structure Identifier where
  Owner : String
  Name : String
  Version : Option String
  deriving DecidableEq, Repr

/-- Modelled from the spec: `ParseIdentifier` — "given a string, returns a
structure with `owner`, `name`, and an optional `version`; on failure
(malformed identifier)" it reports an error (`none` here).  An identifier
names "either a specific model version or an owner/model pair":
`owner/name` or `owner/name:version`. -/
def ParseIdentifier (s : String) : Option Identifier :=
  match (splitOnCh '/' s.data).map String.mk with
  | [owner, nameVer] =>
    match (splitOnCh ':' nameVer.data).map String.mk with
    | [name] => some ⟨owner, name, none⟩
    | [name, ver] => some ⟨owner, name, some ver⟩
    | _ => none
  | _ => none

/-- Lines 150-163 of `CreatePrediction`: parse the identifier, choose the
path, and build the request.  `data` starts as a fresh empty map; when the
identifier parses without a version the model-scoped path is used, otherwise
(parsed with a version, or parse failure) the generic path is used and
`data["version"]` is set to the whole `identifier` string. -/
def createPredictionCore (identifier : String) (input : GoMap)
    (webhook : Option Webhook) (stream : Bool) : BuildOutcome :=
  match ParseIdentifier identifier with
  | some id =>
    match id.Version with
    | none =>
      createPredictionRequest
        ("/models/" ++ id.Owner ++ "/" ++ id.Name ++ "/predictions")
        (some []) input webhook stream
    | some _ =>
      createPredictionRequest "/predictions"
        (some [("version", GoValue.vStr identifier)]) input webhook stream
  | none =>
    createPredictionRequest "/predictions"
      (some [("version", GoValue.vStr identifier)]) input webhook stream

/-- `func (r *Client) CreatePrediction(...)`: build the request, execute it
through the transport (`r.do(req, prediction)`), and wrap a transport
failure as `failed to create prediction: <cause>`.  A parse failure of the
identifier produces no error. -/
def CreatePrediction (doer : BuiltRequest → Except GoError Prediction)
    (identifier : String) (input : GoMap) (webhook : Option Webhook)
    (stream : Bool) : Except GoError Prediction :=
  let out := createPredictionCore identifier input webhook stream
  match doer out.req with
  | Except.error e => Except.error (GoError.wrap "failed to create prediction" e)
  | Except.ok p => Except.ok p

/-- Modelled from the spec: the generic pagination container collaborator —
"a page container holding a sequence of Prediction entities plus pagination
metadata (cursor-based; exact shape owned by the pagination collaborator)". -/
structure Page (α : Type) where
  Results : List α := []
  Next : Option String := none
  Previous : Option String := none

/-- `func (r *Client) ListPredictions(ctx)`: `r.fetch(ctx, "GET",
"/predictions", nil, response)`, wrapping failure as
`failed to list predictions: <cause>`. -/
def ListPredictions
    (fetch : String → String → Except GoError (Page Prediction)) :
    Except GoError (Page Prediction) :=
  match fetch "GET" "/predictions" with
  | Except.error e => Except.error (GoError.wrap "failed to list predictions" e)
  | Except.ok page => Except.ok page

/-- `func (r *Client) GetPrediction(ctx, id)`: `r.fetch(ctx, "GET",
"/predictions/"+id, nil, prediction)`, wrapping failure as
`failed to get prediction: <cause>`. -/
def GetPrediction (fetch : String → String → Except GoError Prediction)
    (id : String) : Except GoError Prediction :=
  match fetch "GET" ("/predictions/" ++ id) with
  | Except.error e => Except.error (GoError.wrap "failed to get prediction" e)
  | Except.ok p => Except.ok p

/-- `func (r *Client) CancelPrediction(ctx, id)`: `r.fetch(ctx, "POST",
"/predictions/"+id+"/cancel", nil, prediction)`, wrapping failure as
`failed to cancel prediction: <cause>`. -/
def CancelPrediction (fetch : String → String → Except GoError Prediction)
    (id : String) : Except GoError Prediction :=
  match fetch "POST" ("/predictions/" ++ id ++ "/cancel") with
  | Except.error e => Except.error (GoError.wrap "failed to cancel prediction" e)
  | Except.ok p => Except.ok p

/-! ### Helper lemmas -/

theorem mapGet_rewriteInput (input : GoMap) (k : String) :
    mapGet (rewriteInput input) k = (mapGet input k).map substFile := by
  induction input with
  | nil => simp [rewriteInput, mapGet]
  | cons hd t ih =>
    obtain ⟨a, b⟩ := hd
    simp only [rewriteInput] at ih ⊢
    by_cases h : a = k <;> simp [mapGet, h, ih]

theorem createPredictionRequest_body_input (path : String) (data : Option GoMap)
    (input : GoMap) (webhook : Option Webhook) (stream : Bool) :
    mapGet (createPredictionRequest path data input webhook stream).req.body "input"
      = some (GoValue.vMap (rewriteInput input)) := by
  have hwh : ∀ (m : GoMap) (v : GoValue),
      mapGet (mapSet m "webhook" v) "input" = mapGet m "input" :=
    fun m v => mapGet_mapSet_ne m "input" "webhook" v (by decide)
  have hef : ∀ (m : GoMap) (v : GoValue),
      mapGet (mapSet m "webhook_events_filter" v) "input" = mapGet m "input" :=
    fun m v => mapGet_mapSet_ne m "input" "webhook_events_filter" v (by decide)
  have hst : ∀ (m : GoMap) (v : GoValue),
      mapGet (mapSet m "stream" v) "input" = mapGet m "input" :=
    fun m v => mapGet_mapSet_ne m "input" "stream" v (by decide)
  cases webhook with
  | none =>
    cases stream <;>
      simp [createPredictionRequest, hwh, hef, hst, mapGet_mapSet_self]
  | some w =>
    cases stream <;> by_cases he : 0 < w.Events.length <;>
      simp [createPredictionRequest, he, hwh, hef, hst, mapGet_mapSet_self]

theorem createPredictionRequest_body_other (path : String) (data : Option GoMap)
    (input : GoMap) (webhook : Option Webhook) (stream : Bool) (k : String)
    (h1 : k ≠ "input") (h2 : k ≠ "webhook") (h3 : k ≠ "webhook_events_filter")
    (h4 : k ≠ "stream") :
    mapGet (createPredictionRequest path data input webhook stream).req.body k
      = mapGet (data.getD []) k := by
  have hin : ∀ (m : GoMap) (v : GoValue),
      mapGet (mapSet m "input" v) k = mapGet m k :=
    fun m v => mapGet_mapSet_ne m k "input" v (Ne.symm h1)
  have hwh : ∀ (m : GoMap) (v : GoValue),
      mapGet (mapSet m "webhook" v) k = mapGet m k :=
    fun m v => mapGet_mapSet_ne m k "webhook" v (Ne.symm h2)
  have hef : ∀ (m : GoMap) (v : GoValue),
      mapGet (mapSet m "webhook_events_filter" v) k = mapGet m k :=
    fun m v => mapGet_mapSet_ne m k "webhook_events_filter" v (Ne.symm h3)
  have hst : ∀ (m : GoMap) (v : GoValue),
      mapGet (mapSet m "stream" v) k = mapGet m k :=
    fun m v => mapGet_mapSet_ne m k "stream" v (Ne.symm h4)
  cases webhook with
  | none =>
    cases stream <;> simp [createPredictionRequest, hin, hwh, hef, hst]
  | some w =>
    cases stream <;> by_cases he : 0 < w.Events.length <;>
      simp [createPredictionRequest, he, hin, hwh, hef, hst]

theorem decodePrediction_rawJSON (j : Json) (p q : Prediction)
    (h : decodePrediction j p = some q) : q.rawJSON = p.rawJSON := by
  cases j with
  | null =>
    simp only [decodePrediction, Option.some.injEq] at h
    subst h; rfl
  | obj fs =>
    simp only [decodePrediction, Option.map_eq_some'] at h
    obtain ⟨a, _, rfl⟩ := h
    rfl
  | bool b => simp [decodePrediction] at h
  | num lx => simp [decodePrediction] at h
  | str s => simp [decodePrediction] at h
  | arr xs => simp [decodePrediction] at h

theorem jsonUnmarshalInto_rawJSON (p1 : Prediction) (data : String) :
    ((jsonUnmarshalInto p1 data).1).rawJSON = p1.rawJSON := by
  unfold jsonUnmarshalInto
  cases hp : parseJson data with
  | none => rfl
  | some j =>
    show (match decodePrediction j p1 with
      | none => (p1, some (GoError.base "json: cannot unmarshal"))
      | some p2 => (p2, none)).1.rawJSON = p1.rawJSON
    cases hd : decodePrediction j p1 with
    | none => rfl
    | some p2 => exact decodePrediction_rawJSON j p1 p2 hd

theorem rawJSON_after_unmarshal (p : Prediction) (data : String) :
    ((Prediction.UnmarshalJSON p data).1).rawJSON = data := by
  unfold Prediction.UnmarshalJSON
  rw [jsonUnmarshalInto_rawJSON]

theorem progressScan_append_none (xs ys : List String)
    (h : ∀ x ∈ xs, progressLine x = none) :
    progressScan (xs ++ ys) = progressScan ys := by
  induction xs with
  | nil => rfl
  | cons a t ih =>
    have ha : progressLine a = none := h a (List.mem_cons_self a t)
    have ht : ∀ x ∈ t, progressLine x = none :=
      fun x hx => h x (List.mem_cons_of_mem a hx)
    simp [progressScan, ha, ih ht]

theorem progressScan_mem (ls : List String) (pr : PredictionProgress)
    (h : progressScan ls = some pr) : ∃ l ∈ ls, progressLine l = some pr := by
  induction ls with
  | nil => simp [progressScan] at h
  | cons a t ih =>
    by_cases ha : (progressLine a).isSome
    · obtain ⟨r, hr⟩ := Option.isSome_iff_exists.mp ha
      refine ⟨a, List.mem_cons_self a t, ?_⟩
      rw [hr]
      simp only [progressScan, hr] at h
      exact h
    · have ha' : progressLine a = none := Option.not_isSome_iff_eq_none.mp ha
      simp only [progressScan, ha'] at h
      obtain ⟨l, hl, hl2⟩ := ih h
      exact ⟨l, List.mem_cons_of_mem a hl, hl2⟩

theorem progressLine_percentage (l : String) (pr : PredictionProgress)
    (h : progressLine l = some pr) : ∃ n : ℕ, pr.Percentage = (n : ℚ) / 100 := by
  unfold progressLine at h
  by_cases hm : (progressMatch (trimSpace l)).isSome
  · simp only [hm, if_true] at h
    cases hr : progressMatch l with
    | none => rw [hr] at h; exact absurd h (by simp)
    | some trip =>
      obtain ⟨n, c, t⟩ := trip
      rw [hr] at h
      simp only [Option.some.injEq] at h
      exact ⟨n, by rw [← h]⟩
  · simp [hm] at h

/-! ### The claims -/

/-- Counterexample for claim C1: the identifier `owner/name:v1` parses into
owner `owner`, name `name` and explicit version `v1`; Create does use the
generic path `/predictions`, but the body's `version` field holds the WHOLE
identifier string `owner/name:v1` (line 160: `data["version"] = identifier`),
not the extracted version string `v1`. -/
theorem C1_counterexample :
    ParseIdentifier "owner/name:v1" = some ⟨"owner", "name", some "v1"⟩ ∧
    (createPredictionCore "owner/name:v1" [] none false).req.path = "/predictions" ∧
    mapGet (createPredictionCore "owner/name:v1" [] none false).req.body "version"
      = some (GoValue.vStr "owner/name:v1") ∧
    "owner/name:v1" ≠ "v1" :=
  ⟨rfl, rfl, rfl, by decide⟩

/-- Claim C1 (amended): for every identifier string that parses into an
owner/name pair with an explicit version, Create uses the generic path
`/predictions` and the body's `version` field is the whole raw identifier
string (not merely the version component extracted from it). -/
theorem C1_version_in_body (identifier owner name ver : String)
    (input : GoMap) (webhook : Option Webhook) (stream : Bool)
    (h : ParseIdentifier identifier = some ⟨owner, name, some ver⟩) :
    (createPredictionCore identifier input webhook stream).req.path = "/predictions" ∧
    mapGet (createPredictionCore identifier input webhook stream).req.body "version"
      = some (GoValue.vStr identifier) := by
  unfold createPredictionCore
  rw [h]
  refine ⟨rfl, ?_⟩
  show mapGet (createPredictionRequest "/predictions"
    (some [("version", GoValue.vStr identifier)]) input webhook stream).req.body "version"
      = some (GoValue.vStr identifier)
  rw [createPredictionRequest_body_other _ _ _ _ _ _
    (by decide) (by decide) (by decide) (by decide)]
  simp [mapGet]

/-- Witness for C1 (amended), at the identifier `owner/name:v1`. -/
theorem C1_version_in_body_witness :
    ParseIdentifier "owner/name:v1" = some ⟨"owner", "name", some "v1"⟩ ∧
    ((createPredictionCore "owner/name:v1" [] none false).req.path = "/predictions" ∧
     mapGet (createPredictionCore "owner/name:v1" [] none false).req.body "version"
       = some (GoValue.vStr "owner/name:v1")) :=
  ⟨rfl, C1_version_in_body "owner/name:v1" "owner" "name" "v1" [] none false rfl⟩

/-- Counterexample for claim C2: after a successful decode of the payload
`\x7b"id":"a"\x7d`, a FAILED decode of the malformed payload consisting of a
lone opening brace still overwrites `rawPayload` with that malformed text
(line 48 runs before the decode), so `rawPayload` no longer equals the last
successfully decoded payload. -/
theorem C2_counterexample :
    (Prediction.UnmarshalJSON {} "\x7b\"id\":\"a\"\x7d").2 = none ∧
    (Prediction.UnmarshalJSON
      (Prediction.UnmarshalJSON {} "\x7b\"id\":\"a\"\x7d").1 "\x7b").2.isSome = true ∧
    (Prediction.UnmarshalJSON
      (Prediction.UnmarshalJSON {} "\x7b\"id\":\"a\"\x7d").1 "\x7b").1.RawJSON = "\x7b" ∧
    "\x7b" ≠ "\x7b\"id\":\"a\"\x7d" :=
  ⟨rfl, rfl, rfl, by decide⟩

/-- Claim C2 (amended): `rawPayload` equals the exact source payload of the
most recent decode ATTEMPT — it is repopulated unconditionally on every call
of the decode hook, before the structured decode runs, so a failed decode
overwrites it with the new payload rather than leaving the previous
successfully decoded payload. -/
theorem C2_rawPayload_last_attempt (p : Prediction) (data : String) :
    ((Prediction.UnmarshalJSON p data).1).RawJSON = data :=
  rawJSON_after_unmarshal p data

/-- Claim C3: every JSON payload that successfully decodes into a
Prediction can be recovered byte-identically from the raw-payload
accessor. -/
theorem C3_roundtrip (p : Prediction) (data : String)
    (_h : (Prediction.UnmarshalJSON p data).2 = none) :
    ((Prediction.UnmarshalJSON p data).1).RawJSON = data :=
  rawJSON_after_unmarshal p data

/-- Witness for C3, at the payload `\x7b"id":"a"\x7d`. -/
theorem C3_roundtrip_witness :
    (Prediction.UnmarshalJSON {} "\x7b\"id\":\"a\"\x7d").2 = none ∧
    ((Prediction.UnmarshalJSON {} "\x7b\"id\":\"a\"\x7d").1).RawJSON
      = "\x7b\"id\":\"a\"\x7d" :=
  ⟨rfl, C3_roundtrip {} "\x7b\"id\":\"a\"\x7d" rfl⟩

/-- Claim C4: when the logs split into lines `pre ++ line :: post` where
`line` yields a progress snapshot and no later line (in `post`) yields one,
Progress returns exactly `line`'s snapshot: the scan runs from the last line
to the first, so the last matching line wins over any earlier matching
line in `pre`. -/
theorem C4_last_match_wins (p : Prediction) (logs line : String)
    (pre post : List String) (t : PredictionProgress)
    (hlogs : p.Logs = some logs)
    (hsplit : splitLines logs = pre ++ line :: post)
    (hline : progressLine line = some t)
    (hpost : ∀ l ∈ post, progressLine l = none) :
    Prediction.Progress p = some t := by
  have hne : logs ≠ "" := by
    intro hempty
    subst hempty
    have h1 : pre ++ line :: post = [""] := hsplit.symm.trans rfl
    cases pre with
    | nil =>
      simp only [List.nil_append, List.cons.injEq] at h1
      rw [h1.1] at hline
      rw [show progressLine "" = none from rfl] at hline
      exact Option.noConfusion hline
    | cons a pre' => simp at h1
  have hP : Prediction.Progress p = progressScan (splitLines logs).reverse := by
    unfold Prediction.Progress
    rw [hlogs]
    show (if logs = "" then none else progressScan (splitLines logs).reverse) = _
    rw [if_neg hne]
  rw [hP, hsplit]
  have hrev : (pre ++ line :: post).reverse = post.reverse ++ (line :: pre.reverse) := by
    simp
  rw [hrev, progressScan_append_none _ _ (fun x hx => hpost x (List.mem_reverse.mp hx))]
  simp [progressScan, hline]

/-- Witness for C4, on the two-line logs from the spec's test vector: the
snapshot comes from the second (last) line even though the first line also
matches. -/
theorem C4_last_match_wins_witness :
    ({ Logs := some "10%|x|5/50\n20%|y|10/50" } : Prediction).Logs
      = some "10%|x|5/50\n20%|y|10/50" ∧
    splitLines "10%|x|5/50\n20%|y|10/50" = ["10%|x|5/50"] ++ "20%|y|10/50" :: [] ∧
    progressLine "20%|y|10/50" = some ⟨(20 : ℚ) / 100, 10, 50⟩ ∧
    Prediction.Progress { Logs := some "10%|x|5/50\n20%|y|10/50" }
      = some ⟨(20 : ℚ) / 100, 10, 50⟩ :=
  ⟨rfl, rfl, rfl,
   C4_last_match_wins { Logs := some "10%|x|5/50\n20%|y|10/50" }
     "10%|x|5/50\n20%|y|10/50" "20%|y|10/50" ["10%|x|5/50"] []
     ⟨(20 : ℚ) / 100, 10, 50⟩ rfl rfl rfl (by simp)⟩

/-- Counterexample for claim C5: the pattern accepts any integer before the
percent sign, so the logs line `250%|x|1/2` produces a snapshot whose
percentage is `250/100 = 2.5`, outside the range 0.0 to 1.0. -/
theorem C5_counterexample :
    Prediction.Progress { Logs := some "250%|x|1/2" }
      = some ⟨(250 : ℚ) / 100, 1, 2⟩ ∧
    ¬ ((250 : ℚ) / 100 ≤ 1) :=
  ⟨rfl, by norm_num⟩

/-- Claim C5 (amended): every snapshot's percentage equals the matched
integer divided by 100 and is nonnegative, but it lies within 0.0 to 1.0
only when the matched integer is at most 100 — the code does not clamp. -/
theorem C5_percentage_shape (p : Prediction) (pr : PredictionProgress)
    (h : Prediction.Progress p = some pr) :
    0 ≤ pr.Percentage ∧
    ∃ n : ℕ, pr.Percentage = (n : ℚ) / 100 ∧ (pr.Percentage ≤ 1 ↔ n ≤ 100) := by
  unfold Prediction.Progress at h
  split at h
  · exact absurd h (by simp)
  · split at h
    · exact absurd h (by simp)
    · obtain ⟨l, -, hl⟩ := progressScan_mem _ _ h
      obtain ⟨n, hn⟩ := progressLine_percentage _ _ hl
      refine ⟨by rw [hn]; positivity, n, hn, ?_⟩
      rw [hn, div_le_one (by norm_num : (0 : ℚ) < 100)]
      exact_mod_cast Iff.rfl

/-- Witness for C5 (amended), at the logs line `20%|y|10/50`. -/
theorem C5_percentage_shape_witness :
    Prediction.Progress { Logs := some "20%|y|10/50" }
      = some ⟨(20 : ℚ) / 100, 10, 50⟩ ∧
    (0 ≤ ((20 : ℚ) / 100) ∧
     ∃ n : ℕ, (20 : ℚ) / 100 = (n : ℚ) / 100 ∧ ((20 : ℚ) / 100 ≤ 1 ↔ n ≤ 100)) :=
  ⟨rfl, C5_percentage_shape { Logs := some "20%|y|10/50" } ⟨(20 : ℚ) / 100, 10, 50⟩ rfl⟩

/-- Claim C6: the request builder rewrites the caller-supplied input map in
place — `inputAfter` is the post-call state of that very map — replacing
every `*File` entry by its `"get"` retrieval URL string and leaving every
other entry unchanged; the rewritten map is what the serialized body's
`input` key holds. -/
theorem C6_input_mutation (path : String) (data : Option GoMap) (input : GoMap)
    (webhook : Option Webhook) (stream : Bool) (k : String) :
    mapGet (createPredictionRequest path data input webhook stream).inputAfter k
      = (mapGet input k).map (fun v =>
          match v with
          | GoValue.vFile f => GoValue.vStr (fileGetURL f)
          | v => v) ∧
    mapGet (createPredictionRequest path data input webhook stream).req.body "input"
      = some (GoValue.vMap
          (createPredictionRequest path data input webhook stream).inputAfter) := by
  constructor
  · cases hv : mapGet input k with
    | none =>
      show mapGet (rewriteInput input) k = _
      rw [mapGet_rewriteInput, hv]; rfl
    | some v =>
      show mapGet (rewriteInput input) k = _
      rw [mapGet_rewriteInput, hv]
      cases v <;> rfl
  · exact createPredictionRequest_body_input path data input webhook stream

/-- Claim C7: an identifier parsing into owner/name without a version gives
the model-scoped path and a body with no `version` key; an identifier that
fails to parse gives the generic path with the whole raw identifier under
`version`, and the parse failure produces no error (a successful transport
round still returns the entity). -/
theorem C7_path_selection (identifier owner name : String) (input : GoMap)
    (webhook : Option Webhook) (stream : Bool) (p : Prediction) :
    (ParseIdentifier identifier = some ⟨owner, name, none⟩ →
      (createPredictionCore identifier input webhook stream).req.path
        = "/models/" ++ owner ++ "/" ++ name ++ "/predictions" ∧
      mapGet (createPredictionCore identifier input webhook stream).req.body "version"
        = none) ∧
    (ParseIdentifier identifier = none →
      (createPredictionCore identifier input webhook stream).req.path = "/predictions" ∧
      mapGet (createPredictionCore identifier input webhook stream).req.body "version"
        = some (GoValue.vStr identifier) ∧
      CreatePrediction (fun _ => Except.ok p) identifier input webhook stream
        = Except.ok p) := by
  constructor
  · intro h
    unfold createPredictionCore
    rw [h]
    refine ⟨rfl, ?_⟩
    show mapGet (createPredictionRequest
      ("/models/" ++ owner ++ "/" ++ name ++ "/predictions")
      (some []) input webhook stream).req.body "version" = none
    rw [createPredictionRequest_body_other _ _ _ _ _ _
      (by decide) (by decide) (by decide) (by decide)]
    rfl
  · intro h
    unfold createPredictionCore
    rw [h]
    refine ⟨rfl, ?_, rfl⟩
    show mapGet (createPredictionRequest "/predictions"
      (some [("version", GoValue.vStr identifier)]) input webhook stream).req.body "version"
        = some (GoValue.vStr identifier)
    rw [createPredictionRequest_body_other _ _ _ _ _ _
      (by decide) (by decide) (by decide) (by decide)]
    simp [mapGet]

/-- Witness for C7: the no-version identifier `owner/name` and the
unparsable identifier `abc123`. -/
theorem C7_path_selection_witness :
    ((createPredictionCore "owner/name" [] none false).req.path
        = "/models/" ++ "owner" ++ "/" ++ "name" ++ "/predictions" ∧
      mapGet (createPredictionCore "owner/name" [] none false).req.body "version"
        = none) ∧
    ((createPredictionCore "abc123" [] none false).req.path = "/predictions" ∧
      mapGet (createPredictionCore "abc123" [] none false).req.body "version"
        = some (GoValue.vStr "abc123") ∧
      CreatePrediction (fun _ => Except.ok {}) "abc123" [] none false
        = Except.ok {}) :=
  ⟨(C7_path_selection "owner/name" "owner" "name" [] none false {}).1 rfl,
   (C7_path_selection "abc123" "owner" "name" [] none false {}).2 rfl⟩

/-- Claim C8: with a webhook supplied, the body's `webhook` field is the
webhook's URL and `webhook_events_filter` is present exactly when the event
filter is non-empty; with no webhook, the builder sets neither field (the
base payload is assumed not to carry them, which holds at every call
site). -/
theorem C8_webhook_fields (path : String) (data : Option GoMap) (input : GoMap)
    (webhook : Option Webhook) (stream : Bool)
    (h1 : mapGet (data.getD []) "webhook" = none)
    (h2 : mapGet (data.getD []) "webhook_events_filter" = none) :
    mapGet (createPredictionRequest path data input webhook stream).req.body "webhook"
      = webhook.map (fun w => GoValue.vStr w.URL) ∧
    mapGet (createPredictionRequest path data input webhook stream).req.body
        "webhook_events_filter"
      = (match webhook with
         | none => none
         | some w =>
           if 0 < w.Events.length
           then some (GoValue.vList (w.Events.map GoValue.vStr)) else none) := by
  have hinwh : ∀ (m : GoMap) (v : GoValue),
      mapGet (mapSet m "input" v) "webhook" = mapGet m "webhook" :=
    fun m v => mapGet_mapSet_ne m "webhook" "input" v (by decide)
  have hinef : ∀ (m : GoMap) (v : GoValue),
      mapGet (mapSet m "input" v) "webhook_events_filter"
        = mapGet m "webhook_events_filter" :=
    fun m v => mapGet_mapSet_ne m "webhook_events_filter" "input" v (by decide)
  have hstwh : ∀ (m : GoMap) (v : GoValue),
      mapGet (mapSet m "stream" v) "webhook" = mapGet m "webhook" :=
    fun m v => mapGet_mapSet_ne m "webhook" "stream" v (by decide)
  have hstef : ∀ (m : GoMap) (v : GoValue),
      mapGet (mapSet m "stream" v) "webhook_events_filter"
        = mapGet m "webhook_events_filter" :=
    fun m v => mapGet_mapSet_ne m "webhook_events_filter" "stream" v (by decide)
  have hefwh : ∀ (m : GoMap) (v : GoValue),
      mapGet (mapSet m "webhook_events_filter" v) "webhook" = mapGet m "webhook" :=
    fun m v => mapGet_mapSet_ne m "webhook" "webhook_events_filter" v (by decide)
  have hwhef : ∀ (m : GoMap) (v : GoValue),
      mapGet (mapSet m "webhook" v) "webhook_events_filter"
        = mapGet m "webhook_events_filter" :=
    fun m v => mapGet_mapSet_ne m "webhook_events_filter" "webhook" v (by decide)
  cases webhook with
  | none =>
    cases stream <;>
      simp [createPredictionRequest, hinwh, hinef, hstwh, hstef, h1, h2]
  | some w =>
    cases stream <;> by_cases he : 0 < w.Events.length <;>
      simp [createPredictionRequest, he, hinwh, hinef, hstwh, hstef, hefwh,
        hwhef, h1, h2, mapGet_mapSet_self]

/-- Witness for C8: the spec's test vector — webhook URL `https://cb` with
an empty event filter sets `webhook` and suppresses
`webhook_events_filter`. -/
theorem C8_webhook_fields_witness :
    mapGet ((none : Option GoMap).getD []) "webhook" = none ∧
    mapGet ((none : Option GoMap).getD []) "webhook_events_filter" = none ∧
    (mapGet (createPredictionRequest "/predictions" none []
        (some ⟨"https://cb", []⟩) false).req.body "webhook"
      = some (GoValue.vStr "https://cb") ∧
     mapGet (createPredictionRequest "/predictions" none []
        (some ⟨"https://cb", []⟩) false).req.body "webhook_events_filter"
      = none) :=
  ⟨rfl, rfl,
   C8_webhook_fields "/predictions" none [] (some ⟨"https://cb", []⟩) false rfl rfl⟩

/-- Claim C9: each of the four operations wraps a transport failure in a
single stage-identifying error (`failed to create prediction`,
`failed to list predictions`, `failed to get prediction`,
`failed to cancel prediction`) around the underlying cause and returns no
entity; on transport success each returns the decoded entity unchanged and
no error. -/
theorem C9_error_wrapping (e : GoError) (p : Prediction) (pg : Page Prediction)
    (identifier id : String) (input : GoMap) (webhook : Option Webhook)
    (stream : Bool) :
    CreatePrediction (fun _ => Except.error e) identifier input webhook stream
      = Except.error (GoError.wrap "failed to create prediction" e) ∧
    CreatePrediction (fun _ => Except.ok p) identifier input webhook stream
      = Except.ok p ∧
    ListPredictions (fun _ _ => Except.error e)
      = Except.error (GoError.wrap "failed to list predictions" e) ∧
    ListPredictions (fun _ _ => Except.ok pg) = Except.ok pg ∧
    GetPrediction (fun _ _ => Except.error e) id
      = Except.error (GoError.wrap "failed to get prediction" e) ∧
    GetPrediction (fun _ _ => Except.ok p) id = Except.ok p ∧
    CancelPrediction (fun _ _ => Except.error e) id
      = Except.error (GoError.wrap "failed to cancel prediction" e) ∧
    CancelPrediction (fun _ _ => Except.ok p) id = Except.ok p :=
  ⟨rfl, rfl, rfl, rfl, rfl, rfl, rfl, rfl⟩

/-- Claim C10: a nil base payload map makes the builder allocate a fresh map
(the caller sees no mutation: `dataAfter` is `none`), and in every case the
body carries the `input` key bound to the rewritten input mapping; a non-nil
base payload map is mutated in place — after the call the caller's map IS
the serialized body, extended with the added keys. -/
theorem C10_base_payload (path : String) (data : Option GoMap) (input : GoMap)
    (webhook : Option Webhook) (stream : Bool) (m : GoMap) :
    mapGet (createPredictionRequest path data input webhook stream).req.body "input"
      = some (GoValue.vMap (rewriteInput input)) ∧
    (createPredictionRequest path none input webhook stream).dataAfter = none ∧
    (createPredictionRequest path (some m) input webhook stream).dataAfter
      = some (createPredictionRequest path (some m) input webhook stream).req.body :=
  ⟨createPredictionRequest_body_input path data input webhook stream, rfl, rfl⟩

end Replicate
